import Mathlib

/-!
Shallow embedding of the document question-answering service implemented in
src/pro/main.py: an in-memory model of the Postgres documents table, the
cosine-similarity matcher, and the HTTP handlers (ingest_document,
get_document, get_all_documents, ask_question).

Floating-point arithmetic is modelled over the reals.  The NaN produced by
the 0/0 cosine edge case (np.dot / (0 * 0)) is modelled as Option.none,
which matches the observable behaviour of NaN in the selection loop: the
strict comparison score > best_score is always False for NaN, so a NaN
score never updates the running best.  A numpy ValueError raised on a
dimension mismatch, and the TypeError raised when best_doc is still None at
the return statement, are both caught by the blanket except handler and
surface as HTTP 500; they are modelled by the serverError outcome.
-/

namespace DocManager

open scoped Classical

/-- Row of the documents table: id TEXT PRIMARY KEY, content TEXT,
embedding FLOAT8 array, created_at TIMESTAMP (timestamps as naturals). -/
structure DocRecord where
  id : String
  content : String
  embedding : List ℝ
  created_at : ℕ

/-- Request body of the ingest endpoint (pydantic model Document). -/
structure Document where
  id : String
  content : String

/-- Request body of the ask endpoint (pydantic model Question); both fields
are required. -/
structure Question where
  question : String
  document_ids : List String

/-- Pydantic request validation for the ask endpoint: the Question model
declares question and document_ids as required fields, so a JSON body
missing either field is rejected with a 422 validation error before the
handler runs (modelled as none). -/
def parseQuestion : Option String → Option (List String) → Option Question
  | some q, some ids => some ⟨q, ids⟩
  | _, _ => none

/-- np.dot on two one-dimensional arrays: the sum of pairwise products. -/
def dotList (a b : List ℝ) : ℝ :=
  (List.zipWith (fun x y => x * y) a b).sum

/-- np.linalg.norm on a one-dimensional array: the Euclidean magnitude,
the square root of the dot product of the vector with itself. -/
noncomputable def normList (v : List ℝ) : ℝ :=
  Real.sqrt (dotList v v)

/-- Independent statement of the Euclidean norm, written directly as the
square root of the sum of the squares of the entries; used to compare the
code formula against the specification formula. -/
noncomputable def specNorm (v : List ℝ) : ℝ :=
  Real.sqrt ((v.map (fun x => x ^ 2)).sum)

/-- cosine_similarity from main.py: np.dot(a, b) / (norm(a) * norm(b)).
When the denominator is zero the float division yields NaN (0/0), modelled
as none; otherwise the exact quotient is returned. -/
noncomputable def cosine_similarity (a b : List ℝ) : Option ℝ :=
  if normList a * normList b = 0 then none
  else some (dotList a b / (normList a * normList b))

/-- Selection loop of ask_question, with explicit accumulator
(best_doc, best_score), started at (None, -1).  A NaN score (none) leaves
the accumulator unchanged because score > best_score is False for NaN; a
real score replaces the accumulator exactly when it strictly exceeds the
running best. -/
noncomputable def askLoop (q : List ℝ) : List DocRecord → Option DocRecord × ℝ → Option DocRecord × ℝ
  | [], acc => acc
  | d :: ds, acc =>
      askLoop q ds
        (match cosine_similarity q d.embedding with
          | none => acc
          | some s => if acc.2 < s then (some d, s) else acc)

/-- Result of the selection loop from its initial state best_score = -1,
best_doc = None. -/
noncomputable def bestDoc (q : List ℝ) (docs : List DocRecord) : Option DocRecord × ℝ :=
  askLoop q docs (none, -1)

/-- Candidate fetch of ask_question: SELECT ... WHERE id = ANY(ids).
Rows whose id is listed are returned in stored order; ids that match no
row are silently skipped and produce no error. -/
def fetchCandidates (store : List DocRecord) (ids : List String) : List DocRecord :=
  store.filter (fun d => decide (d.id ∈ ids))

/-- Outcome of the ask endpoint: a 200 answer, the 404 "No documents
found" rejection, or a 500 from the blanket exception handler. -/
inductive AskResult where
  | ok (answer : String) (document_id : String) (similarity_score : ℝ)
  | notFound
  | serverError

/-- ask_question from main.py: embed the question, fetch the candidate
rows by id, 404 when none matched, then run the selection loop.  A
dimension mismatch between the query embedding and any candidate embedding
makes np.dot raise, surfacing as a 500; if the loop finishes with best_doc
still None, the return statement raises TypeError, also surfacing as a
500. -/
noncomputable def ask_question (embed : String → List ℝ) (store : List DocRecord)
    (qr : Question) : AskResult :=
  if (fetchCandidates store qr.document_ids).isEmpty then AskResult.notFound
  else if (fetchCandidates store qr.document_ids).any
      (fun d => decide (d.embedding.length ≠ (embed qr.question).length)) then
    AskResult.serverError
  else
    match bestDoc (embed qr.question) (fetchCandidates store qr.document_ids) with
    | (some d, s) => AskResult.ok d.content d.id s
    | (none, _) => AskResult.serverError

/-- Outcome of the get-one-document endpoint. -/
inductive GetDocResult where
  | ok (id : String) (content : String) (created_at : ℕ)
  | serverError (detail : String)
  deriving DecidableEq

/-- get_document from main.py.  When no row matches, the handler raises
HTTPException(404, ...) inside the try block, but the blanket
except Exception clause catches that very exception and re-raises it as a
500 whose detail wraps str(e) = "404: Document with id X not found"; the
client therefore observes a 500, never a 404. -/
def get_document (store : List DocRecord) (doc_id : String) : GetDocResult :=
  match store.find? (fun d => d.id == doc_id) with
  | some d => GetDocResult.ok d.id d.content d.created_at
  | none =>
      GetDocResult.serverError
        ("Error retrieving document: 404: Document with id " ++ doc_id ++ " not found")

/-- Outcome of the ingest endpoint: 201 with the id, or the 400
already-exists rejection raised on UniqueViolationError. -/
inductive IngestResult where
  | created (id : String)
  | alreadyExists (detail : String)
  deriving DecidableEq

/-- ingest_document from main.py: the embedding of the content is computed,
then the row is inserted; the primary-key constraint rejects a duplicate id
with UniqueViolationError, surfaced as a 400 naming the id, and in that
case the table is unchanged. -/
def ingest_document (embed : String → List ℝ) (store : List DocRecord)
    (doc : Document) (now : ℕ) : IngestResult × List DocRecord :=
  if store.any (fun d => d.id == doc.id) then
    (IngestResult.alreadyExists ("Document with id " ++ doc.id ++ " already exists"), store)
  else
    (IngestResult.created doc.id, store ++ [⟨doc.id, doc.content, embed doc.content, now⟩])

/-- Insertion step of the model of ORDER BY created_at DESC: place a row
into an already descending list, keeping it descending. -/
def insertByTime (d : DocRecord) : List DocRecord → List DocRecord
  | [] => [d]
  | e :: es => if d.created_at ≤ e.created_at then e :: insertByTime d es else d :: e :: es

/-- Sort a list of rows by created_at descending (insertion sort). -/
def sortByTimeDesc : List DocRecord → List DocRecord
  | [] => []
  | d :: ds => insertByTime d (sortByTimeDesc ds)

/-- get_all_documents from main.py: SELECT id, content, created_at FROM
documents ORDER BY created_at DESC, returning every row, newest first. -/
def get_all_documents (store : List DocRecord) : List DocRecord :=
  sortByTimeDesc store

/-! Helper lemmas about the vector arithmetic. -/

theorem dotList_comm (a b : List ℝ) : dotList a b = dotList b a := by
  unfold dotList
  rw [List.zipWith_comm_of_comm (fun x y => x * y) mul_comm]

theorem dotList_cons (x y : ℝ) (xs ys : List ℝ) :
    dotList (x :: xs) (y :: ys) = x * y + dotList xs ys := by
  simp [dotList]

theorem dotList_nil : dotList [] [] = 0 := rfl

theorem dotList_self_nonneg (v : List ℝ) : 0 ≤ dotList v v := by
  induction v with
  | nil => simp [dotList]
  | cons x xs ih =>
      rw [dotList_cons]
      nlinarith [mul_self_nonneg x]

theorem normList_nonneg (v : List ℝ) : 0 ≤ normList v :=
  Real.sqrt_nonneg _

theorem normList_mul_self (v : List ℝ) : normList v * normList v = dotList v v :=
  Real.mul_self_sqrt (dotList_self_nonneg v)

theorem normList_eq_zero_iff (v : List ℝ) : normList v = 0 ↔ dotList v v = 0 := by
  unfold normList
  constructor
  · intro h
    have := Real.sqrt_eq_zero'.mp h
    exact le_antisymm this (dotList_self_nonneg v)
  · intro h
    rw [h, Real.sqrt_zero]

theorem specNorm_eq_normList (v : List ℝ) : specNorm v = normList v := by
  unfold specNorm normList
  congr 1
  induction v with
  | nil => simp [dotList]
  | cons x xs ih =>
      rw [dotList_cons, List.map_cons, List.sum_cons, ih]
      ring_nf

theorem dotList_single (x y : ℝ) : dotList [x] [y] = x * y := by
  simp [dotList]

theorem normList_single (x : ℝ) : normList [x] = |x| := by
  rw [normList, dotList_single, ← Real.sqrt_sq_eq_abs, sq]

theorem normList_one : normList [(1 : ℝ)] = 1 := by
  rw [normList_single]; norm_num

theorem normList_two : normList [(2 : ℝ)] = 2 := by
  rw [normList_single]; norm_num

theorem normList_neg_one : normList [(-1 : ℝ)] = 1 := by
  rw [normList_single]; norm_num

theorem normList_zero_vec : normList [(0 : ℝ)] = 0 := by
  rw [normList_single]; norm_num

theorem cosine_defined (a b : List ℝ) (h : normList a * normList b ≠ 0) :
    cosine_similarity a b = some (dotList a b / (normList a * normList b)) := by
  unfold cosine_similarity
  rw [if_neg h]

theorem cosine_undefined (a b : List ℝ) (h : normList a * normList b = 0) :
    cosine_similarity a b = none := by
  unfold cosine_similarity
  rw [if_pos h]

theorem cosine_self_eq_one (v : List ℝ) (hv : normList v ≠ 0) :
    cosine_similarity v v = some 1 := by
  have hd : dotList v v ≠ 0 := fun h =>
    hv ((normList_eq_zero_iff v).mpr h)
  rw [cosine_defined v v (mul_ne_zero hv hv), normList_mul_self]
  rw [div_self hd]

theorem cosine_one_one : cosine_similarity [(1 : ℝ)] [(1 : ℝ)] = some 1 := by
  apply cosine_self_eq_one
  rw [normList_one]; norm_num

theorem cosine_one_neg_one : cosine_similarity [(1 : ℝ)] [(-1 : ℝ)] = some (-1) := by
  rw [cosine_defined]
  · rw [dotList_single, normList_one, normList_neg_one]; norm_num
  · rw [normList_one, normList_neg_one]; norm_num

theorem cosine_one_two : cosine_similarity [(1 : ℝ)] [(2 : ℝ)] = some 1 := by
  rw [cosine_defined]
  · rw [dotList_single, normList_one, normList_two]; norm_num
  · rw [normList_one, normList_two]; norm_num

theorem cosine_zero_one : cosine_similarity [(0 : ℝ)] [(1 : ℝ)] = none := by
  apply cosine_undefined
  rw [normList_zero_vec, normList_one]; norm_num

/-! Helper lemmas about the selection loop. -/

theorem askLoop_nil (q : List ℝ) (acc : Option DocRecord × ℝ) :
    askLoop q [] acc = acc := rfl

theorem askLoop_cons (q : List ℝ) (d : DocRecord) (ds : List DocRecord)
    (acc : Option DocRecord × ℝ) :
    askLoop q (d :: ds) acc =
      askLoop q ds
        (match cosine_similarity q d.embedding with
          | none => acc
          | some s => if acc.2 < s then (some d, s) else acc) := rfl

theorem askLoop_cons_undef (q : List ℝ) (d : DocRecord) (ds : List DocRecord)
    (acc : Option DocRecord × ℝ) (h : cosine_similarity q d.embedding = none) :
    askLoop q (d :: ds) acc = askLoop q ds acc := by
  rw [askLoop_cons, h]

theorem askLoop_cons_def (q : List ℝ) (d : DocRecord) (ds : List DocRecord)
    (acc : Option DocRecord × ℝ) (s : ℝ) (h : cosine_similarity q d.embedding = some s) :
    askLoop q (d :: ds) acc = askLoop q ds (if acc.2 < s then (some d, s) else acc) := by
  rw [askLoop_cons, h]

theorem askLoop_snd_le (q : List ℝ) (ds : List DocRecord) (acc : Option DocRecord × ℝ) :
    acc.2 ≤ (askLoop q ds acc).2 := by
  induction ds generalizing acc with
  | nil => exact le_refl _
  | cons d ds ih =>
      cases h : cosine_similarity q d.embedding with
      | none =>
          rw [askLoop_cons_undef q d ds acc h]
          exact ih acc
      | some s =>
          rw [askLoop_cons_def q d ds acc s h]
          by_cases hs : acc.2 < s
          · rw [if_pos hs]
            exact le_trans (le_of_lt hs) (ih (some d, s))
          · rw [if_neg hs]
            exact ih acc

theorem askLoop_score_le (q : List ℝ) (ds : List DocRecord) (acc : Option DocRecord × ℝ) :
    ∀ d ∈ ds, ∀ s, cosine_similarity q d.embedding = some s → s ≤ (askLoop q ds acc).2 := by
  induction ds generalizing acc with
  | nil => intro d hd; exact absurd hd (List.not_mem_nil d)
  | cons e es ih =>
      intro d hd s hs
      rcases List.mem_cons.mp hd with rfl | hmem
      · rw [askLoop_cons_def q d es acc s hs]
        by_cases ha : acc.2 < s
        · rw [if_pos ha]
          exact askLoop_snd_le q es (some d, s)
        · rw [if_neg ha]
          exact le_trans (not_lt.mp ha) (askLoop_snd_le q es acc)
      · cases h : cosine_similarity q e.embedding with
        | none =>
            rw [askLoop_cons_undef q e es acc h]
            exact ih acc d hmem s hs
        | some t =>
            rw [askLoop_cons_def q e es acc t h]
            exact ih _ d hmem s hs

theorem askLoop_result (q : List ℝ) (ds : List DocRecord) (acc : Option DocRecord × ℝ) :
    askLoop q ds acc = acc ∨
      ∃ d ∈ ds, ∃ s, cosine_similarity q d.embedding = some s ∧ acc.2 < s ∧
        askLoop q ds acc = (some d, s) := by
  induction ds generalizing acc with
  | nil => exact Or.inl rfl
  | cons d ds ih =>
      cases h : cosine_similarity q d.embedding with
      | none =>
          rw [askLoop_cons_undef q d ds acc h]
          rcases ih acc with h1 | ⟨e, he, s, hs, hlt, heq⟩
          · exact Or.inl h1
          · exact Or.inr ⟨e, List.mem_cons_of_mem d he, s, hs, hlt, heq⟩
      | some s =>
          rw [askLoop_cons_def q d ds acc s h]
          by_cases ha : acc.2 < s
          · rw [if_pos ha]
            rcases ih (some d, s) with h1 | ⟨e, he, t, ht, hlt, heq⟩
            · exact Or.inr ⟨d, List.mem_cons_self d ds, s, h, ha, h1⟩
            · exact Or.inr ⟨e, List.mem_cons_of_mem d he, t, ht, lt_trans ha hlt, heq⟩
          · rw [if_neg ha]
            rcases ih acc with h1 | ⟨e, he, t, ht, hlt, heq⟩
            · exact Or.inl h1
            · exact Or.inr ⟨e, List.mem_cons_of_mem d he, t, ht, hlt, heq⟩

theorem askLoop_stay (q : List ℝ) (ds : List DocRecord) (acc : Option DocRecord × ℝ)
    (h : ∀ d ∈ ds, ∀ s, cosine_similarity q d.embedding = some s → s ≤ acc.2) :
    askLoop q ds acc = acc := by
  induction ds with
  | nil => exact rfl
  | cons d ds ih =>
      cases hc : cosine_similarity q d.embedding with
      | none =>
          rw [askLoop_cons_undef q d ds acc hc]
          exact ih fun e he s hs => h e (List.mem_cons_of_mem d he) s hs
      | some s =>
          have hle : s ≤ acc.2 := h d (List.mem_cons_self d ds) s hc
          rw [askLoop_cons_def q d ds acc s hc, if_neg (not_lt.mpr hle)]
          exact ih fun e he t ht => h e (List.mem_cons_of_mem d he) t ht

theorem askLoop_append (q : List ℝ) (l1 l2 : List DocRecord) (acc : Option DocRecord × ℝ) :
    askLoop q (l1 ++ l2) acc = askLoop q l2 (askLoop q l1 acc) := by
  induction l1 generalizing acc with
  | nil => rfl
  | cons d ds ih =>
      rw [List.cons_append, askLoop_cons, askLoop_cons, ih]

theorem bestDoc_some (q : List ℝ) (docs : List DocRecord) (d : DocRecord) (s : ℝ)
    (h : bestDoc q docs = (some d, s)) :
    d ∈ docs ∧ cosine_similarity q d.embedding = some s ∧ -1 < s ∧
      ∀ e ∈ docs, ∀ t, cosine_similarity q e.embedding = some t → t ≤ s := by
  have hub := askLoop_score_le q docs (none, -1)
  rcases askLoop_result q docs (none, -1) with h1 | ⟨e, he, t, ht, hlt, heq⟩
  · rw [bestDoc] at h
    rw [h1] at h
    exact absurd (congrArg Prod.fst h) (by simp)
  · rw [bestDoc] at h
    rw [heq] at h
    have hde : e = d := by
      have := congrArg Prod.fst h
      simpa using this
    have hts : t = s := by
      have := congrArg Prod.snd h
      simpa using this
    subst hde; subst hts
    refine ⟨he, ht, hlt, fun f hf u hu => ?_⟩
    have := hub f hf u hu
    rw [heq] at this
    exact this

theorem bestDoc_none (q : List ℝ) (docs : List DocRecord) (r : ℝ)
    (h : bestDoc q docs = (none, r)) :
    r = -1 ∧ ∀ e ∈ docs, ∀ t, cosine_similarity q e.embedding = some t → t ≤ -1 := by
  have hub := askLoop_score_le q docs (none, -1)
  rcases askLoop_result q docs (none, -1) with h1 | ⟨e, he, t, ht, hlt, heq⟩
  · rw [bestDoc] at h
    rw [h1] at h
    have hr : r = -1 := by
      have := congrArg Prod.snd h
      simpa using this.symm
    subst hr
    refine ⟨rfl, fun f hf u hu => ?_⟩
    have := hub f hf u hu
    rw [h1] at this
    exact this
  · rw [bestDoc] at h
    rw [heq] at h
    exact absurd (congrArg Prod.fst h) (by simp)

theorem bestDoc_perm (q : List ℝ) (docs docs' : List DocRecord) (hp : docs.Perm docs')
    (hinj : ∀ d ∈ docs, ∀ e ∈ docs, ∀ s, cosine_similarity q d.embedding = some s →
      cosine_similarity q e.embedding = some s → d = e) :
    bestDoc q docs = bestDoc q docs' := by
  rcases hb : bestDoc q docs with ⟨od, s⟩
  rcases hb' : bestDoc q docs' with ⟨od', s'⟩
  cases od with
  | some d =>
      obtain ⟨hd, hds, hgt, hmax⟩ := bestDoc_some q docs d s hb
      cases od' with
      | some d' =>
          obtain ⟨hd', hds', hgt', hmax'⟩ := bestDoc_some q docs' d' s' hb'
          have hle1 : s' ≤ s := hmax d' (hp.mem_iff.mpr hd') s' hds'
          have hle2 : s ≤ s' := hmax' d (hp.mem_iff.mp hd) s hds
          have hss : s = s' := le_antisymm hle2 hle1
          subst hss
          have hdd : d = d' := hinj d hd d' (hp.mem_iff.mpr hd') s hds hds'
          rw [hdd]
      | none =>
          obtain ⟨_, hall⟩ := bestDoc_none q docs' s' hb'
          have := hall d (hp.mem_iff.mp hd) s hds
          exact absurd this (not_le.mpr hgt)
  | none =>
      obtain ⟨hr, hall⟩ := bestDoc_none q docs s hb
      cases od' with
      | some d' =>
          obtain ⟨hd', hds', hgt', _⟩ := bestDoc_some q docs' d' s' hb'
          have := hall d' (hp.mem_iff.mpr hd') s' hds'
          exact absurd this (not_le.mpr hgt')
      | none =>
          obtain ⟨hr', _⟩ := bestDoc_none q docs' s' hb'
          rw [hr, hr']

theorem bestDoc_first_max (q : List ℝ) (pre post : List DocRecord) (d : DocRecord) (s : ℝ)
    (hd : cosine_similarity q d.embedding = some s) (hs : -1 < s)
    (hpre : ∀ e ∈ pre, ∀ t, cosine_similarity q e.embedding = some t → t < s)
    (hpost : ∀ e ∈ post, ∀ t, cosine_similarity q e.embedding = some t → t ≤ s) :
    bestDoc q (pre ++ d :: post) = (some d, s) := by
  rw [bestDoc, askLoop_append]
  have hA2 : (askLoop q pre (none, -1)).2 < s := by
    rcases askLoop_result q pre (none, -1) with h1 | ⟨e, he, t, ht, hlt, heq⟩
    · rw [h1]; exact hs
    · rw [heq]; exact hpre e he t ht
  rw [askLoop_cons_def q d post _ s hd, if_pos hA2]
  exact askLoop_stay q post (some d, s) hpost

/-! Helper lemmas about the ask endpoint. -/

theorem fetchCandidates_nil_ids (store : List DocRecord) :
    fetchCandidates store [] = [] := by
  simp [fetchCandidates]

theorem fetchCandidates_mem (store : List DocRecord) (ids : List String) (d : DocRecord) :
    d ∈ fetchCandidates store ids ↔ d ∈ store ∧ d.id ∈ ids := by
  simp [fetchCandidates, List.mem_filter]

theorem ask_question_of_no_candidates (embed : String → List ℝ) (store : List DocRecord)
    (qr : Question) (h : fetchCandidates store qr.document_ids = []) :
    ask_question embed store qr = AskResult.notFound := by
  unfold ask_question
  rw [h]
  rfl

theorem ask_question_ok_elim (embed : String → List ℝ) (store : List DocRecord)
    (qr : Question) (a i : String) (s : ℝ)
    (h : ask_question embed store qr = AskResult.ok a i s) :
    ∃ d ∈ fetchCandidates store qr.document_ids,
      d.id = i ∧ d.content = a ∧
      cosine_similarity (embed qr.question) d.embedding = some s ∧
      -1 < s ∧
      ∀ e ∈ fetchCandidates store qr.document_ids, ∀ t,
        cosine_similarity (embed qr.question) e.embedding = some t → t ≤ s := by
  unfold ask_question at h
  by_cases h1 : (fetchCandidates store qr.document_ids).isEmpty
  · rw [if_pos h1] at h
    exact absurd h (by simp)
  · rw [if_neg h1] at h
    by_cases h2 : (fetchCandidates store qr.document_ids).any
        (fun d => decide (d.embedding.length ≠ (embed qr.question).length))
    · rw [if_pos h2] at h
      exact absurd h (by simp)
    · rw [if_neg h2] at h
      rcases hb : bestDoc (embed qr.question) (fetchCandidates store qr.document_ids)
        with ⟨od, t⟩
      rw [hb] at h
      cases od with
      | none => exact absurd h (by simp)
      | some d =>
          obtain ⟨hmem, hcos, hgt, hmax⟩ :=
            bestDoc_some (embed qr.question) (fetchCandidates store qr.document_ids) d t hb
          have hd : AskResult.ok d.content d.id t = AskResult.ok a i s := h
          have ha : d.content = a := by injection hd
          have hi : d.id = i := by
            injection hd with h1 h2 h3
          have hs : t = s := by
            injection hd with h1 h2 h3
          subst hs
          exact ⟨d, hmem, hi, ha, hcos, hgt, hmax⟩

/-- C8: an ask request whose candidate ids match no stored record resolves
to an empty candidate sequence and fails with the 404 "No documents found"
condition; it never produces an ok answer. -/
theorem C8_only_nonexistent_ids (embed : String → List ℝ) (store : List DocRecord)
    (qr : Question) (h : ∀ i ∈ qr.document_ids, ∀ d ∈ store, d.id ≠ i) :
    ask_question embed store qr = AskResult.notFound := by
  apply ask_question_of_no_candidates
  unfold fetchCandidates
  rw [List.filter_eq_nil_iff]
  intro d hd
  simp only [decide_eq_true_eq]
  intro hmem
  exact h d.id hmem d hd rfl

/-- Witness for C8 at a concrete input: a store holding one record with id
d1 asked with candidate id zz. -/
theorem C8_witness :
    ask_question (fun _ => [(1 : ℝ)]) [⟨"d1", "cats", [(1 : ℝ)], 0⟩]
      ⟨"q", ["zz"]⟩ = AskResult.notFound := by
  apply C8_only_nonexistent_ids
  intro i hi d hd
  fin_cases hi
  fin_cases hd
  decide

/-- C1 (corrected): the Question model requires document_ids, so a request
missing the field is rejected by validation, and an empty document_ids list
resolves to an empty candidate set and the 404 "No documents found" error;
the search never falls back to the whole store. -/
theorem C1_empty_or_missing_candidate_ids (embed : String → List ℝ)
    (store : List DocRecord) (qtext : String) :
    ask_question embed store ⟨qtext, []⟩ = AskResult.notFound ∧
      parseQuestion (some qtext) none = none := by
  constructor
  · exact ask_question_of_no_candidates embed store ⟨qtext, []⟩
      (fetchCandidates_nil_ids store)
  · rfl

/-- Counterexample to C1 as stated: with one stored record whose embedding
matches the query perfectly, an ask request with an empty candidate_ids
list returns the 404 "No documents found" rejection instead of searching
the entire store (which would have answered with d1), and a request body
without the candidate_ids field fails validation instead of being
accepted. -/
theorem C1_counterexample :
    ask_question (fun _ => [(1 : ℝ)]) [⟨"d1", "cats", [(1 : ℝ)], 0⟩]
      ⟨"q", []⟩ = AskResult.notFound ∧
    parseQuestion (some "q") none = none ∧
    ([(⟨"d1", "cats", [(1 : ℝ)], 0⟩ : DocRecord)] : List DocRecord) ≠ [] := by
  refine ⟨?_, rfl, by simp⟩
  exact ask_question_of_no_candidates _ _ _ (fetchCandidates_nil_ids _)

/-- C2 (code bug): get_document on an id absent from the store surfaces as
an HTTP 500 generic error.  The handler does raise HTTPException(404, ...)
naming the missing id, but its own blanket except Exception clause catches
that exception and re-raises it as a 500 wrapping str(e), so the client
never sees the 404.  Evaluated here at the failing input: an empty store
and the id "missing". -/
theorem C2_get_document_missing_gives_500 :
    get_document [] "missing" =
      GetDocResult.serverError
        "Error retrieving document: 404: Document with id missing not found" := by
  rfl

theorem ask_question_all_undef (embed : String → List ℝ) (store : List DocRecord)
    (qr : Question) (hne : fetchCandidates store qr.document_ids ≠ [])
    (hall : ∀ d ∈ fetchCandidates store qr.document_ids,
      cosine_similarity (embed qr.question) d.embedding = none) :
    ask_question embed store qr = AskResult.serverError := by
  unfold ask_question
  have h1 : ¬((fetchCandidates store qr.document_ids).isEmpty = true) := by
    simpa [List.isEmpty_iff] using hne
  rw [if_neg h1]
  by_cases h2 : (fetchCandidates store qr.document_ids).any
      (fun d => decide (d.embedding.length ≠ (embed qr.question).length)) = true
  · rw [if_pos h2]
  · rw [if_neg h2]
    have hbd : bestDoc (embed qr.question) (fetchCandidates store qr.document_ids)
        = (none, -1) := by
      apply askLoop_stay
      intro d hd s hs
      rw [hall d hd] at hs
      exact absurd hs (by simp)
    rw [hbd]

theorem ask_question_ok_intro (embed : String → List ℝ) (store : List DocRecord)
    (qr : Question) (d : DocRecord) (s : ℝ)
    (hfetch : fetchCandidates store qr.document_ids = [d])
    (hlen : d.embedding.length = (embed qr.question).length)
    (hcos : cosine_similarity (embed qr.question) d.embedding = some s)
    (hgt : -1 < s) :
    ask_question embed store qr = AskResult.ok d.content d.id s := by
  unfold ask_question
  rw [hfetch]
  rw [if_neg (by simp : ¬(([d] : List DocRecord).isEmpty = true))]
  rw [if_neg (by simp [hlen] :
    ¬(([d] : List DocRecord).any
        (fun e => decide (e.embedding.length ≠ (embed qr.question).length)) = true))]
  have hbd : bestDoc (embed qr.question) [d] = (some d, s) := by
    rw [bestDoc, askLoop_cons_def _ d [] _ s hcos,
      if_pos (show ((none, -1) : Option DocRecord × ℝ).2 < s from hgt)]
    rfl
  rw [hbd]

/-- C3 (corrected): a zero-magnitude comparison yields NaN rather than the
lowest possible score; NaN never beats the running best, so a candidate
whose comparison is undefined is never selected as the best match; but
when every candidate comparison is undefined (for instance when the query
embedding itself has zero magnitude), the handler crashes into the 500
internal error instead of answering. -/
theorem C3_zero_magnitude (embed : String → List ℝ) (store : List DocRecord)
    (qr : Question) :
    (∀ a i s, ask_question embed store qr = AskResult.ok a i s →
      ∃ d ∈ fetchCandidates store qr.document_ids, d.id = i ∧
        normList (embed qr.question) ≠ 0 ∧ normList d.embedding ≠ 0) ∧
    (fetchCandidates store qr.document_ids ≠ [] →
      (∀ d ∈ fetchCandidates store qr.document_ids,
        normList (embed qr.question) * normList d.embedding = 0) →
      ask_question embed store qr = AskResult.serverError) := by
  constructor
  · intro a i s h
    obtain ⟨d, hmem, hi, _, hcos, _, _⟩ := ask_question_ok_elim embed store qr a i s h
    refine ⟨d, hmem, hi, ?_⟩
    by_cases hz : normList (embed qr.question) * normList d.embedding = 0
    · rw [cosine_undefined _ _ hz] at hcos
      exact absurd hcos (by simp)
    · exact mul_ne_zero_iff.mp hz
  · intro hne hall
    exact ask_question_all_undef embed store qr hne
      (fun d hd => cosine_undefined _ _ (hall d hd))

/-- Counterexample to C3 as stated: a query whose embedding is the zero
vector makes every comparison NaN; the loop then finishes with best_doc
still None and the return statement raises TypeError, surfacing as an HTTP
500 — the engine does crash on this request instead of treating the
comparison as a lowest-score candidate. -/
theorem C3_counterexample :
    ask_question (fun _ => [(0 : ℝ)]) [⟨"d1", "cats", [(1 : ℝ)], 0⟩]
      ⟨"q", ["d1"]⟩ = AskResult.serverError := by
  have hfetch : fetchCandidates [⟨"d1", "cats", [(1 : ℝ)], 0⟩] ["d1"]
      = [⟨"d1", "cats", [(1 : ℝ)], 0⟩] := by
    simp [fetchCandidates]
  apply ask_question_all_undef
  · rw [hfetch]; simp
  · intro d hd
    rw [hfetch] at hd
    rw [List.mem_singleton.mp hd]
    exact cosine_zero_one

/-- Witness for C3 at concrete inputs: a perfectly matching one-document
store where ask succeeds (so the winning embeddings have nonzero
magnitude), and the zero-magnitude query of the counterexample where the
second conjunct yields the 500. -/
theorem C3_witness :
    (∃ d ∈ fetchCandidates [⟨"d1", "cats", [(1 : ℝ)], 0⟩] ["d1"],
      d.id = "d1" ∧ normList [(1 : ℝ)] ≠ 0 ∧ normList d.embedding ≠ 0) ∧
    ask_question (fun _ => [(0 : ℝ)]) [⟨"d1", "cats", [(1 : ℝ)], 0⟩]
      ⟨"q", ["d1"]⟩ = AskResult.serverError := by
  have hfetch : fetchCandidates [⟨"d1", "cats", [(1 : ℝ)], 0⟩] ["d1"]
      = [⟨"d1", "cats", [(1 : ℝ)], 0⟩] := by
    simp [fetchCandidates]
  constructor
  · have hask : ask_question (fun _ => [(1 : ℝ)]) [⟨"d1", "cats", [(1 : ℝ)], 0⟩]
        ⟨"q", ["d1"]⟩ = AskResult.ok "cats" "d1" 1 := by
      have h := ask_question_ok_intro (fun _ => [(1 : ℝ)])
        [⟨"d1", "cats", [(1 : ℝ)], 0⟩] ⟨"q", ["d1"]⟩
        ⟨"d1", "cats", [(1 : ℝ)], 0⟩ 1 hfetch rfl cosine_one_one (by norm_num)
      exact h
    exact (C3_zero_magnitude (fun _ => [(1 : ℝ)]) [⟨"d1", "cats", [(1 : ℝ)], 0⟩]
      ⟨"q", ["d1"]⟩).1 "cats" "d1" 1 hask
  · apply (C3_zero_magnitude (fun _ => [(0 : ℝ)]) [⟨"d1", "cats", [(1 : ℝ)], 0⟩]
      ⟨"q", ["d1"]⟩).2
    · rw [hfetch]; simp
    · intro d hd
      rw [hfetch] at hd
      rw [List.mem_singleton.mp hd]
      show normList [(0 : ℝ)] * normList [(1 : ℝ)] = 0
      rw [normList_zero_vec, zero_mul]

/-- C4: ingesting a fresh id succeeds with 201, ingesting the same id a
second time fails with the 400 already-exists error naming the id, the
store is unchanged by the failing call, and the store then holds exactly
one record for that id carrying the first content and embedding. -/
theorem C4_duplicate_ingest (embed : String → List ℝ) (store : List DocRecord)
    (i cA cB : String) (t1 t2 : ℕ) (hfresh : ∀ d ∈ store, d.id ≠ i) :
    (ingest_document embed store ⟨i, cA⟩ t1).1 = IngestResult.created i ∧
    (ingest_document embed (ingest_document embed store ⟨i, cA⟩ t1).2 ⟨i, cB⟩ t2).1 =
      IngestResult.alreadyExists ("Document with id " ++ i ++ " already exists") ∧
    (ingest_document embed (ingest_document embed store ⟨i, cA⟩ t1).2 ⟨i, cB⟩ t2).2 =
      (ingest_document embed store ⟨i, cA⟩ t1).2 ∧
    (ingest_document embed store ⟨i, cA⟩ t1).2.filter (fun d => d.id == i) =
      [⟨i, cA, embed cA, t1⟩] := by
  have hany : ¬(store.any (fun d => d.id == i) = true) := by
    rw [List.any_eq_true]
    rintro ⟨d, hd, hdi⟩
    exact hfresh d hd (by simpa using hdi)
  have hstep : ingest_document embed store ⟨i, cA⟩ t1 =
      (IngestResult.created i, store ++ [⟨i, cA, embed cA, t1⟩]) := by
    unfold ingest_document
    rw [if_neg hany]
  have hdup : (store ++ [(⟨i, cA, embed cA, t1⟩ : DocRecord)]).any
      (fun d => d.id == i) = true := by
    rw [List.any_eq_true]
    exact ⟨⟨i, cA, embed cA, t1⟩, List.mem_append_right _ (List.mem_singleton_self _),
      by simp⟩
  refine ⟨by rw [hstep], ?_, ?_, ?_⟩
  · rw [hstep]
    unfold ingest_document
    rw [if_pos hdup]
  · rw [hstep]
    unfold ingest_document
    rw [if_pos hdup]
  · rw [hstep]
    show (store ++ [(⟨i, cA, embed cA, t1⟩ : DocRecord)]).filter
      (fun d => d.id == i) = _
    rw [List.filter_append]
    have h1 : store.filter (fun d => d.id == i) = [] := by
      rw [List.filter_eq_nil_iff]
      intro d hd
      simpa using hfresh d hd
    rw [h1]
    simp

/-- Witness for C4 at a concrete input: ingesting id a twice into an empty
store. -/
theorem C4_witness :
    (ingest_document (fun _ => []) [] ⟨"a", "x"⟩ 0).1 = IngestResult.created "a" ∧
    (ingest_document (fun _ => [])
        (ingest_document (fun _ => []) [] ⟨"a", "x"⟩ 0).2 ⟨"a", "y"⟩ 1).1 =
      IngestResult.alreadyExists ("Document with id " ++ "a" ++ " already exists") ∧
    (ingest_document (fun _ => [])
        (ingest_document (fun _ => []) [] ⟨"a", "x"⟩ 0).2 ⟨"a", "y"⟩ 1).2 =
      (ingest_document (fun _ => []) [] ⟨"a", "x"⟩ 0).2 ∧
    (ingest_document (fun _ => []) [] ⟨"a", "x"⟩ 0).2.filter (fun d => d.id == "a") =
      [⟨"a", "x", (fun _ => ([] : List ℝ)) "x", 0⟩] :=
  C4_duplicate_ingest (fun _ => []) [] "a" "x" "y" 0 1 (by simp)

/-- C9: cosine similarity is symmetric in its two arguments, because the
dot product and the product of the two norms are both symmetric, and so is
the zero-denominator NaN condition. -/
theorem C9_cosine_symmetric (a b : List ℝ) (hlen : a.length = b.length) :
    cosine_similarity a b = cosine_similarity b a := by
  unfold cosine_similarity
  rw [dotList_comm b a, mul_comm (normList b) (normList a)]

/-- Witness for C9 at a concrete input: the equal-length vectors 1 and
2. -/
theorem C9_witness :
    cosine_similarity [(1 : ℝ)] [(2 : ℝ)] = cosine_similarity [(2 : ℝ)] [(1 : ℝ)] ∧
    [(1 : ℝ)].length = [(2 : ℝ)].length :=
  ⟨C9_cosine_symmetric [(1 : ℝ)] [(2 : ℝ)] rfl, rfl⟩

/-- C5: the top result of the selection loop is invariant under any
reordering of a candidate sequence whose defined scores identify records
uniquely (no exact ties); and the first candidate whose score attains the
maximum wins, so on an exact tie the candidate earlier in the processed
order is selected. -/
theorem C5_rank_stability (q : List ℝ) :
    (∀ docs docs' : List DocRecord, docs.Perm docs' →
      (∀ d ∈ docs, ∀ e ∈ docs, ∀ s, cosine_similarity q d.embedding = some s →
        cosine_similarity q e.embedding = some s → d = e) →
      bestDoc q docs = bestDoc q docs') ∧
    (∀ (pre post : List DocRecord) (d : DocRecord) (s : ℝ),
      cosine_similarity q d.embedding = some s → -1 < s →
      (∀ e ∈ pre, ∀ t, cosine_similarity q e.embedding = some t → t < s) →
      (∀ e ∈ post, ∀ t, cosine_similarity q e.embedding = some t → t ≤ s) →
      bestDoc q (pre ++ d :: post) = (some d, s)) :=
  ⟨fun docs docs' hp hinj => bestDoc_perm q docs docs' hp hinj,
   fun pre post d s hd hs hpre hpost => bestDoc_first_max q pre post d s hd hs hpre hpost⟩

/-- Witness for C5 at concrete inputs: two candidates with distinct scores
1 and -1 give the same top result in either order, and of two candidates
tied at score 1 the one processed first wins even with a lower-scoring
candidate before both. -/
theorem C5_witness :
    bestDoc [(1 : ℝ)] [⟨"p", "cp", [(1 : ℝ)], 0⟩, ⟨"n", "cn", [(-1 : ℝ)], 1⟩] =
      bestDoc [(1 : ℝ)] [⟨"n", "cn", [(-1 : ℝ)], 1⟩, ⟨"p", "cp", [(1 : ℝ)], 0⟩] ∧
    bestDoc [(1 : ℝ)]
        [⟨"n", "cn", [(-1 : ℝ)], 1⟩, ⟨"p", "cp", [(1 : ℝ)], 0⟩,
          ⟨"p2", "cp2", [(2 : ℝ)], 2⟩] =
      (some ⟨"p", "cp", [(1 : ℝ)], 0⟩, 1) := by
  constructor
  · apply (C5_rank_stability [(1 : ℝ)]).1
    · exact List.Perm.swap _ _ _
    · intro d hd e he s hds hes
      fin_cases hd <;> fin_cases he
      · rfl
      · exfalso
        have h1 : cosine_similarity [(1 : ℝ)] [(1 : ℝ)] = some s := hds
        have h2 : cosine_similarity [(1 : ℝ)] [(-1 : ℝ)] = some s := hes
        rw [cosine_one_one] at h1
        rw [cosine_one_neg_one] at h2
        have e1 : (1 : ℝ) = s := by injection h1
        have e2 : (-1 : ℝ) = s := by injection h2
        linarith
      · exfalso
        have h1 : cosine_similarity [(1 : ℝ)] [(-1 : ℝ)] = some s := hds
        have h2 : cosine_similarity [(1 : ℝ)] [(1 : ℝ)] = some s := hes
        rw [cosine_one_neg_one] at h1
        rw [cosine_one_one] at h2
        have e1 : (-1 : ℝ) = s := by injection h1
        have e2 : (1 : ℝ) = s := by injection h2
        linarith
      · rfl
  · have hpre : ∀ e ∈ ([⟨"n", "cn", [(-1 : ℝ)], 1⟩] : List DocRecord), ∀ t,
        cosine_similarity [(1 : ℝ)] e.embedding = some t → t < 1 := by
      intro e he t ht
      have ht2 : cosine_similarity [(1 : ℝ)] [(-1 : ℝ)] = some t := by
        rw [List.mem_singleton.mp he] at ht
        exact ht
      rw [cosine_one_neg_one] at ht2
      have e1 : (-1 : ℝ) = t := by injection ht2
      linarith
    have hpost : ∀ e ∈ ([⟨"p2", "cp2", [(2 : ℝ)], 2⟩] : List DocRecord), ∀ t,
        cosine_similarity [(1 : ℝ)] e.embedding = some t → t ≤ 1 := by
      intro e he t ht
      have ht2 : cosine_similarity [(1 : ℝ)] [(2 : ℝ)] = some t := by
        rw [List.mem_singleton.mp he] at ht
        exact ht
      rw [cosine_one_two] at ht2
      have e1 : (1 : ℝ) = t := by injection ht2
      linarith
    have h := (C5_rank_stability [(1 : ℝ)]).2 [⟨"n", "cn", [(-1 : ℝ)], 1⟩]
      [⟨"p2", "cp2", [(2 : ℝ)], 2⟩] ⟨"p", "cp", [(1 : ℝ)], 0⟩ 1
      cosine_one_one (by norm_num) hpre hpost
    exact h

/-- C6: for equal-length vectors of nonzero magnitude, cosine_similarity
computes exactly the quotient of the dot product by the product of the
Euclidean norms (the norms written independently as the square root of the
sum of squared entries), and for identical vectors the score is 1 up to
the 1e-6 tolerance (it is exactly 1). -/
theorem C6_cosine_exact (a b : List ℝ) (hlen : a.length = b.length)
    (ha : normList a ≠ 0) (hb : normList b ≠ 0) :
    cosine_similarity a b = some (dotList a b / (specNorm a * specNorm b)) ∧
    (a = b → ∃ s, cosine_similarity a b = some s ∧ |s - 1| ≤ 1 / 1000000) := by
  constructor
  · rw [specNorm_eq_normList, specNorm_eq_normList]
    exact cosine_defined a b (mul_ne_zero ha hb)
  · rintro rfl
    exact ⟨1, cosine_self_eq_one a ha, by norm_num⟩

/-- Witness for C6 at a concrete input: the vector 1 compared with
itself. -/
theorem C6_witness :
    (∃ s, cosine_similarity [(1 : ℝ)] [(1 : ℝ)] = some s ∧ |s - 1| ≤ 1 / 1000000) ∧
    normList [(1 : ℝ)] ≠ 0 := by
  have h1 : normList [(1 : ℝ)] ≠ 0 := by
    rw [normList_one]; norm_num
  exact ⟨(C6_cosine_exact [(1 : ℝ)] [(1 : ℝ)] rfl h1 h1).2 rfl, h1⟩

theorem length_filter_mem_comm {α : Type _} [DecidableEq α] (A I : List α)
    (hA : A.Nodup) (hI : I.Nodup) :
    (A.filter (fun a => decide (a ∈ I))).length =
      (I.filter (fun a => decide (a ∈ A))).length := by
  rw [← List.toFinset_card_of_nodup (List.Nodup.filter _ hA),
    ← List.toFinset_card_of_nodup (List.Nodup.filter _ hI),
    List.toFinset_filter, List.toFinset_filter]
  have e1 : Finset.filter (fun a => decide (a ∈ I) = true) A.toFinset =
      A.toFinset ∩ I.toFinset := by
    ext x
    simp
  have e2 : Finset.filter (fun a => decide (a ∈ A) = true) I.toFinset =
      I.toFinset ∩ A.toFinset := by
    ext x
    simp
  rw [e1, e2, Finset.inter_comm]

/-- C7: the candidate fetch returns exactly the stored records whose ids
appear in the requested id list (membership characterisation, no error
outcome exists), and when store ids and requested ids are without
duplicates its size equals the number of requested ids that exist in the
store. -/
theorem C7_getMany_semantics (store : List DocRecord) (ids : List String) :
    (∀ d, d ∈ fetchCandidates store ids ↔ d ∈ store ∧ d.id ∈ ids) ∧
    ((store.map DocRecord.id).Nodup → ids.Nodup →
      (fetchCandidates store ids).length =
        (ids.filter (fun i => decide (i ∈ store.map DocRecord.id))).length) := by
  constructor
  · intro d
    exact fetchCandidates_mem store ids d
  · intro hA hI
    have h3 : (store.map DocRecord.id).filter (fun a => decide (a ∈ ids)) =
        (store.filter (fun d => decide (d.id ∈ ids))).map DocRecord.id := by
      rw [List.filter_map]
      rfl
    have h4 : (fetchCandidates store ids).length =
        ((store.map DocRecord.id).filter (fun a => decide (a ∈ ids))).length := by
      rw [h3, List.length_map]
      rfl
    rw [h4]
    exact length_filter_mem_comm (store.map DocRecord.id) ids hA hI

/-- Witness for C7 at a concrete input: a one-record store queried with
one existing and one unknown id. -/
theorem C7_witness :
    (fetchCandidates [⟨"d1", "c", [], 0⟩] ["d1", "zz"]).length =
      ((["d1", "zz"] : List String).filter
        (fun i => decide (i ∈ ([(⟨"d1", "c", [], 0⟩ : DocRecord)] :
          List DocRecord).map DocRecord.id))).length := by
  apply (C7_getMany_semantics [⟨"d1", "c", [], 0⟩] ["d1", "zz"]).2
  · simp
  · simp

/-! Helper lemmas about the sort used by get_all_documents. -/

theorem insertByTime_perm (d : DocRecord) (l : List DocRecord) :
    (insertByTime d l).Perm (d :: l) := by
  induction l with
  | nil => exact List.Perm.refl _
  | cons e es ih =>
      unfold insertByTime
      by_cases h : d.created_at ≤ e.created_at
      · rw [if_pos h]
        exact (List.Perm.cons e ih).trans (List.Perm.swap d e es)
      · rw [if_neg h]

theorem insertByTime_sorted (d : DocRecord) (l : List DocRecord)
    (h : List.Pairwise (fun x y => y.created_at ≤ x.created_at) l) :
    List.Pairwise (fun x y => y.created_at ≤ x.created_at) (insertByTime d l) := by
  induction l with
  | nil => simp [insertByTime]
  | cons e es ih =>
      rw [List.pairwise_cons] at h
      obtain ⟨he, hes⟩ := h
      unfold insertByTime
      by_cases hc : d.created_at ≤ e.created_at
      · rw [if_pos hc]
        apply List.Pairwise.cons
        · intro x hx
          rcases List.mem_cons.mp ((insertByTime_perm d es).mem_iff.mp hx) with rfl | hmem
          · exact hc
          · exact he x hmem
        · exact ih hes
      · rw [if_neg hc]
        apply List.Pairwise.cons
        · intro x hx
          rcases List.mem_cons.mp hx with rfl | hmem
          · exact le_of_lt (not_le.mp hc)
          · exact le_trans (he x hmem) (le_of_lt (not_le.mp hc))
        · exact List.Pairwise.cons he hes

theorem insertByTime_of_le (d : DocRecord) (l : List DocRecord)
    (h : ∀ e ∈ l, d.created_at ≤ e.created_at) :
    insertByTime d l = l ++ [d] := by
  induction l with
  | nil => rfl
  | cons e es ih =>
      unfold insertByTime
      rw [if_pos (h e (List.mem_cons_self e es)),
        ih fun x hx => h x (List.mem_cons_of_mem e hx)]
      rfl

theorem sortByTimeDesc_perm (l : List DocRecord) : (sortByTimeDesc l).Perm l := by
  induction l with
  | nil => exact List.Perm.refl _
  | cons d ds ih =>
      unfold sortByTimeDesc
      exact (insertByTime_perm d (sortByTimeDesc ds)).trans (List.Perm.cons d ih)

theorem sortByTimeDesc_sorted (l : List DocRecord) :
    List.Pairwise (fun x y => y.created_at ≤ x.created_at) (sortByTimeDesc l) := by
  induction l with
  | nil => simp [sortByTimeDesc]
  | cons d ds ih =>
      unfold sortByTimeDesc
      exact insertByTime_sorted d (sortByTimeDesc ds) ih

theorem sortByTimeDesc_of_increasing (l : List DocRecord)
    (h : List.Pairwise (fun x y => x.created_at < y.created_at) l) :
    sortByTimeDesc l = l.reverse := by
  induction l with
  | nil => rfl
  | cons d ds ih =>
      rw [List.pairwise_cons] at h
      obtain ⟨hd, hds⟩ := h
      unfold sortByTimeDesc
      rw [ih hds,
        insertByTime_of_le d ds.reverse
          (fun e he => le_of_lt (hd e (List.mem_reverse.mp he))),
        List.reverse_cons]

/-- C10: the documents listing returns every stored record (a permutation
of the store), ordered by created_at descending; and when the timestamps
strictly increase along insertion order (in particular, all distinct) the
listing is exactly the reverse of insertion order. -/
theorem C10_list_documents (store : List DocRecord) :
    (get_all_documents store).Perm store ∧
    List.Pairwise (fun x y => y.created_at ≤ x.created_at) (get_all_documents store) ∧
    (List.Pairwise (fun x y => x.created_at < y.created_at) store →
      get_all_documents store = store.reverse) :=
  ⟨sortByTimeDesc_perm store, sortByTimeDesc_sorted store,
    fun h => sortByTimeDesc_of_increasing store h⟩

/-- Witness for C10 at a concrete input: two records inserted at times 1
and 2 are listed newest first. -/
theorem C10_witness :
    get_all_documents [⟨"a", "x", [], 1⟩, ⟨"b", "y", [], 2⟩] =
      [⟨"b", "y", [], 2⟩, ⟨"a", "x", [], 1⟩] := by
  have h := (C10_list_documents [⟨"a", "x", [], 1⟩, ⟨"b", "y", [], 2⟩]).2.2
    (by simp [List.pairwise_cons])
  exact h.trans (by rfl)

end DocManager
